import Mathlib

/-!
Verification development for the election-dashboard schema normalizer
(`app.py`).  The pandas data frames are embedded shallowly: a data frame
is a list of column labels together with a list of rows, each row a list
of cells aligned positionally with the labels.  Cells are strings,
integers, or null (pandas `NaN`).  Numeric coercion
(`pd.to_numeric(..., errors="coerce")`) is modelled at integer
precision: an integer literal (optionally signed) parses, anything else
coerces to null.
-/

namespace ElectionApp

/-- A cell of a data frame: a string, a number, or null (pandas `NaN`). -/
inductive Value where
  | str (s : String)
  | num (n : Int)
  | null
deriving DecidableEq, Repr

/-- Fold decimal digits into a natural number. -/
def digitsVal (ds : List Char) : Nat :=
  ds.foldl (fun a c => 10 * a + (c.toNat - 48)) 0

/-- Parse a nonempty all-digit string as a natural number. -/
def parseNat? (ds : List Char) : Option Nat :=
  if ds ≠ [] ∧ ds.all Char.isDigit then some (digitsVal ds) else none

/-- Parse an optionally-signed integer literal. -/
def parseInt? (s : String) : Option Int :=
  match s.data with
  | '-' :: ds => (parseNat? ds).map (fun n => -(n : Int))
  | ds => (parseNat? ds).map (fun n => (n : Int))

/-- `pd.to_numeric(v, errors="coerce")` on one cell (integer precision):
numbers stay, numeric strings parse, everything else becomes null. -/
def toNumeric (v : Value) : Value :=
  match v with
  | .str s => match parseInt? s with
    | some n => .num n
    | none => .null
  | .num n => .num n
  | .null => .null

/-- A data frame: ordered column labels and rows of cells aligned
positionally with the labels. -/
structure Table where
  cols : List String
  rows : List (List Value)
deriving DecidableEq, Repr

/-- Well-formed tabular data: every row has one cell per column. -/
def Table.WF (t : Table) : Prop :=
  ∀ r ∈ t.rows, r.length = t.cols.length

instance (t : Table) : Decidable t.WF := by
  unfold Table.WF; infer_instance

/-- The cell of row `r` at the (first) column labelled `c`; null when no
column is labelled `c` (or the row is too short). -/
def cell (cols : List String) (r : List Value) (c : String) : Value :=
  match (cols.zip r).find? (fun p => p.1 == c) with
  | some p => p.2
  | none => .null

/-- `app.py` line 53: `has(df, col)` is `col in df.columns`. -/
def has (t : Table) (c : String) : Bool :=
  t.cols.contains c

/-- One label's cleaning, as a per-character map:
lowercase (`.str.lower()`), then `" " -> "_"` and `"." -> "_"`
(`.str.replace`, literal single-character patterns). -/
def cleanChar (c : Char) : Char :=
  let l := c.toLower
  let l₁ := if l = ' ' then '_' else l
  if l₁ = '.' then '_' else l₁

/-- `.str.strip()` on the character list: drop leading and trailing
whitespace. -/
def trimChars (l : List Char) : List Char :=
  ((l.dropWhile Char.isWhitespace).reverse.dropWhile Char.isWhitespace).reverse

/-- `app.py` lines 28-33 applied to one column label: strip, lowercase,
replace spaces and periods with underscores. -/
def clean (s : String) : String :=
  ⟨(trimChars s.data).map cleanChar⟩

/-- `app.py` lines 27-34: `normalize` cleans every column label and
leaves the data untouched. -/
def normalize (t : Table) : Table :=
  { cols := t.cols.map clean, rows := t.rows }

/-- `app.py` lines 40-48: the closed synonym table applied to one
cleaned label; labels outside every group pass through unchanged. -/
def mapCol (c : String) : String :=
  if c = "state" ∨ c = "state_name" then "state"
  else if c = "party" ∨ c = "party_name" then "party"
  else if c = "votes" ∨ c = "total_votes" ∨ c = "valid_votes" then "votes"
  else if c = "margin" ∨ c = "vote_margin" ∨ c = "winning_margin" then "margin"
  else c

/-- The union of the synonym groups of `map_semantic`. -/
def synonyms : List String :=
  ["state", "state_name", "party", "party_name",
   "votes", "total_votes", "valid_votes",
   "margin", "vote_margin", "winning_margin"]

/-- `app.py` lines 37-50: `map_semantic` renames every column whose
label is in a synonym group to that group's canonical name (pandas
`df.rename` renames by label, hence every occurrence). -/
def map_semantic (t : Table) : Table :=
  { cols := t.cols.map mapCol, rows := t.rows }

/-- `app.py` line 65: `d24["Margin"] = pd.to_numeric(d24["Margin"],
errors="coerce")` — coerce the cells of the `Margin` column. -/
def coerceMargin (t : Table) : Table :=
  { cols := t.cols,
    rows := t.rows.map (fun r =>
      List.zipWith (fun cc x => if cc = "Margin" then toNumeric x else x) t.cols r) }

/-- `app.py` line 66: `d24.dropna(subset=["Margin"])` — keep only rows
whose `Margin` cell is non-null. -/
def dropNullMargin (t : Table) : Table :=
  { cols := t.cols,
    rows := t.rows.filter (fun r => !(cell t.cols r "Margin" == Value.null)) }

/-- `app.py` lines 64-66: the 2024-only pre-cleaning sanitation — if a
raw column literally named `Margin` exists, coerce it to numeric and
drop the rows where coercion gave null. -/
def sanitize24 (t : Table) : Table :=
  if "Margin" ∈ t.cols then dropNullMargin (coerceMargin t) else t

/-- `df[c] = v` in pandas: overwrite every column labelled `c` when one
exists, otherwise append a new column `c`, with `v` in every row. -/
def setCol (t : Table) (c : String) (v : Value) : Table :=
  if c ∈ t.cols then
    { cols := t.cols,
      rows := t.rows.map (fun r =>
        List.zipWith (fun cc x => if cc = c then v else x) t.cols r) }
  else
    { cols := t.cols ++ [c], rows := t.rows.map (fun r => r ++ [v]) }

/-- Column union in order of first appearance, as `pd.concat`
(`sort=False`) builds the result schema. -/
def unionCols (l₁ l₂ : List String) : List String :=
  l₁ ++ l₂.filter (fun c => !(l₁.contains c))

/-- Re-key one row from its table's labels to the unioned labels;
columns the source table lacks become null. -/
def alignRow (cs : List String) (cols : List String) (r : List Value) : List Value :=
  cs.map (cell cols r)

/-- `pd.concat([t₁, t₂, t₃], ignore_index=True, sort=False)` on its
success path: union of the schemas in order of first appearance, rows
concatenated in dataset order, each row re-keyed to the unioned schema
with null for absent columns.  Faithful to pandas when every frame's
labels are duplicate-free, and on the identical-schema fast path when
any duplicated columns hold equal values rowwise (as the year columns
written by `setCol` do); the error path pandas takes on other
duplicate-labelled frames is modelled by `concat3E`. -/
def concat3 (t₁ t₂ t₃ : Table) : Table :=
  let cs := unionCols (unionCols t₁.cols t₂.cols) t₃.cols
  { cols := cs,
    rows := t₁.rows.map (alignRow cs t₁.cols)
         ++ t₂.rows.map (alignRow cs t₂.cols)
         ++ t₃.rows.map (alignRow cs t₃.cols) }

/-- `app.py` lines 57-76: `load_data` on the three raw datasets —
normalize and semantically map 2014 and 2019, sanitize then normalize
and map 2024, tag each with its year literal, and concatenate. -/
def load_data (d14 d19 d24 : Table) : Table :=
  let t14 := setCol (map_semantic (normalize d14)) "year" (.num 2014)
  let t19 := setCol (map_semantic (normalize d19)) "year" (.num 2019)
  let t24 := setCol (map_semantic (normalize (sanitize24 d24))) "year" (.num 2024)
  concat3 t14 t19 t24

/-- `pd.concat` with its error path: when the three frames' schemas are
all identical, concatenation takes the fast path and succeeds; when they
differ, every frame is reindexed to the union schema, and pandas raises
`InvalidIndexError` if any frame's labels contain duplicates; otherwise
the reindexing concatenation of `concat3`. -/
def concat3E (t₁ t₂ t₃ : Table) : Except String Table :=
  if (t₁.cols = t₂.cols ∧ t₂.cols = t₃.cols)
      ∨ (t₁.cols.Nodup ∧ t₂.cols.Nodup ∧ t₃.cols.Nodup) then
    .ok (concat3 t₁ t₂ t₃)
  else
    .error "InvalidIndexError"

/-- `load_data` with `pd.concat`'s error path made explicit: the same
pipeline as `load_data`, ending in `concat3E`. -/
def load_dataE (d14 d19 d24 : Table) : Except String Table :=
  let t14 := setCol (map_semantic (normalize d14)) "year" (.num 2014)
  let t19 := setCol (map_semantic (normalize d19)) "year" (.num 2019)
  let t24 := setCol (map_semantic (normalize (sanitize24 d24))) "year" (.num 2024)
  concat3E t14 t19 t24

/-- `filtered = df[df[c] == v]`: keep the rows whose cell at `c` equals
`v`; the schema is unchanged. -/
def filterEq (t : Table) (c : String) (v : Value) : Table :=
  { cols := t.cols, rows := t.rows.filter (fun r => cell t.cols r c == v) }

/-- `app.py` lines 84-109: the sidebar cascade — filter to the chosen
year, then by state when a state column exists and the choice is not
`"All"`, then by party likewise. -/
def dashboard_filtered (df : Table) (y : Value) (state party : String) : Table :=
  let f₁ := filterEq df "year" y
  let f₂ := if has f₁ "state" ∧ state ≠ "All" then filterEq f₁ "state" (.str state) else f₁
  let f₃ := if has f₂ "party" ∧ party ≠ "All" then filterEq f₂ "party" (.str party) else f₂
  f₃

/-- The sidebar cascade with the party filter applied before the state
filter, for the order-independence property. -/
def dashboard_filtered_alt (df : Table) (y : Value) (state party : String) : Table :=
  let f₁ := filterEq df "year" y
  let f₂ := if has f₁ "party" ∧ party ≠ "All" then filterEq f₁ "party" (.str party) else f₁
  let f₃ := if has f₂ "state" ∧ state ≠ "All" then filterEq f₂ "state" (.str state) else f₂
  f₃

/-- The numeric view of a column: each cell coerced with `to_numeric`,
nulls dropped (`.dropna()`), as `app.py` lines 128-129 and 139-140. -/
def numericCol (t : Table) (c : String) : List Int :=
  t.rows.filterMap (fun r =>
    match toNumeric (cell t.cols r c) with
    | .num n => some n
    | _ => none)

/-- `app.py` lines 127-147: the average metric over column `c` — `none`
is the dashboard's "N/A", reported when the column is absent or when
coercion leaves no usable value; otherwise the mean of the usable
values. -/
def avgMetric (t : Table) (c : String) : Option Rat :=
  if has t c then
    let xs := numericCol t c
    if xs.isEmpty then none
    else some (mkRat xs.sum xs.length)
  else none

/-! ### Character-level lemmas for label cleaning -/

theorem char_toNat_ofNat (n : Nat) (h : n < 55296) : (Char.ofNat n).toNat = n := by
  rw [Char.ofNat, dif_pos (Or.inl h)]
  rfl

theorem toLower_def (c : Char) :
    c.toLower = if 65 ≤ c.toNat ∧ c.toNat ≤ 90 then Char.ofNat (c.toNat + 32) else c := rfl

theorem toNat_toLower (c : Char) (h : 65 ≤ c.toNat ∧ c.toNat ≤ 90) :
    c.toLower.toNat = c.toNat + 32 := by
  rw [toLower_def, if_pos h, char_toNat_ofNat]
  omega

theorem toLower_toLower (c : Char) : c.toLower.toLower = c.toLower := by
  by_cases h : 65 ≤ c.toNat ∧ c.toNat ≤ 90
  · have h2 := toNat_toLower c h
    rw [toLower_def c.toLower, if_neg]
    omega
  · rw [toLower_def c, if_neg h, toLower_def c, if_neg h]

theorem ws_toNat {c : Char} (h : c.isWhitespace = true) :
    c.toNat = 32 ∨ c.toNat = 9 ∨ c.toNat = 13 ∨ c.toNat = 10 := by
  simp only [Char.isWhitespace, Bool.or_eq_true, decide_eq_true_eq] at h
  rcases h with ((h | h) | h) | h <;> subst h <;> simp

theorem ws_toLower (c : Char) : c.toLower.isWhitespace = c.isWhitespace := by
  by_cases h : 65 ≤ c.toNat ∧ c.toNat ≤ 90
  · have h2 := toNat_toLower c h
    have hc : c.isWhitespace = false := by
      by_contra hw
      have := @ws_toNat c (by revert hw; cases c.isWhitespace <;> simp)
      omega
    have hl : c.toLower.isWhitespace = false := by
      by_contra hw
      have := @ws_toNat c.toLower (by revert hw; cases c.toLower.isWhitespace <;> simp)
      omega
    rw [hc, hl]
  · rw [toLower_def, if_neg h]

theorem cleanChar_underscore : cleanChar '_' = '_' := by decide

theorem cleanChar_idem (c : Char) : cleanChar (cleanChar c) = cleanChar c := by
  unfold cleanChar
  by_cases h1 : c.toLower = ' '
  · simp only [h1]
    decide
  · by_cases h2 : c.toLower = '.'
    · simp only [h1, if_neg h1, h2]
      decide
    · simp only [if_neg h1, if_neg h2, toLower_toLower, if_neg h1, if_neg h2]

theorem ws_cleanChar (c : Char) (h : c.isWhitespace = false) :
    (cleanChar c).isWhitespace = false := by
  unfold cleanChar
  by_cases h1 : c.toLower = ' '
  · simp only [h1]
    decide
  · by_cases h2 : c.toLower = '.'
    · simp only [if_neg h1, h2]
      decide
    · simp only [if_neg h1, if_neg h2]
      rw [ws_toLower, h]

/-- No leading whitespace character. -/
def NoLeadWS (l : List Char) : Prop :=
  ∀ c, l.head? = some c → c.isWhitespace = false

theorem noLeadWS_dropWhile (l : List Char) :
    NoLeadWS (l.dropWhile Char.isWhitespace) := by
  induction l with
  | nil => intro c h; simp at h
  | cons a t ih =>
    by_cases ha : a.isWhitespace
    · rw [List.dropWhile_cons_of_pos ha]; exact ih
    · rw [List.dropWhile_cons_of_neg ha]
      intro c h
      simp at h
      subst h
      simpa using ha

theorem dropWhile_eq_self_of_noLeadWS {l : List Char} (h : NoLeadWS l) :
    l.dropWhile Char.isWhitespace = l := by
  cases l with
  | nil => rfl
  | cons a t =>
    have := h a (by simp)
    rw [List.dropWhile_cons_of_neg (by simp [this])]

theorem noLeadWS_map {l : List Char} (h : NoLeadWS l) :
    NoLeadWS (l.map cleanChar) := by
  intro c hc
  rw [List.head?_map] at hc
  cases hl : l.head? with
  | none => rw [hl] at hc; simp at hc
  | some a =>
    rw [hl] at hc
    simp at hc
    subst hc
    exact ws_cleanChar a (h a hl)

theorem prefix_head?_eq {l₁ l₂ : List Char} (h : l₁ <+: l₂) {c : Char}
    (hc : l₁.head? = some c) : l₂.head? = some c := by
  obtain ⟨r, rfl⟩ := h
  cases l₁ with
  | nil => simp at hc
  | cons a t => simp at hc ⊢; exact hc

theorem prefix_noLeadWS {l₁ l₂ : List Char} (h : l₁ <+: l₂) (h2 : NoLeadWS l₂) :
    NoLeadWS l₁ :=
  fun c hc => h2 c (prefix_head?_eq h hc)

theorem noLeadWS_trimChars (l : List Char) : NoLeadWS (trimChars l) := by
  have hsfx : ((l.dropWhile Char.isWhitespace).reverse.dropWhile Char.isWhitespace)
      <:+ (l.dropWhile Char.isWhitespace).reverse := List.dropWhile_suffix _
  have hpfx : trimChars l <+: l.dropWhile Char.isWhitespace := by
    unfold trimChars
    have := List.reverse_prefix.mpr hsfx
    simpa using this
  exact prefix_noLeadWS hpfx (noLeadWS_dropWhile l)

theorem noLeadWS_trimChars_reverse (l : List Char) : NoLeadWS (trimChars l).reverse := by
  unfold trimChars
  rw [List.reverse_reverse]
  exact noLeadWS_dropWhile _

theorem trimChars_eq_self {l : List Char} (h1 : NoLeadWS l) (h2 : NoLeadWS l.reverse) :
    trimChars l = l := by
  unfold trimChars
  rw [dropWhile_eq_self_of_noLeadWS h1, dropWhile_eq_self_of_noLeadWS h2,
    List.reverse_reverse]

theorem trimChars_map_trimChars (l : List Char) :
    trimChars ((trimChars l).map cleanChar) = (trimChars l).map cleanChar := by
  apply trimChars_eq_self
  · exact noLeadWS_map (noLeadWS_trimChars l)
  · rw [← List.map_reverse]
    exact noLeadWS_map (noLeadWS_trimChars_reverse l)

theorem cleanListChars_idem (l : List Char) :
    (trimChars ((trimChars l).map cleanChar)).map cleanChar
      = (trimChars l).map cleanChar := by
  rw [trimChars_map_trimChars, List.map_map]
  apply List.map_congr_left
  intro c _
  simp only [Function.comp_apply]
  exact cleanChar_idem c

theorem clean_clean (s : String) : clean (clean s) = clean s := by
  apply String.ext
  show (trimChars ((trimChars s.data).map cleanChar)).map cleanChar
      = (trimChars s.data).map cleanChar
  exact cleanListChars_idem s.data

/-- C3: label cleaning trims surrounding whitespace, lowercases, and
replaces spaces and periods with underscores; in particular
`clean " State Name " = "state_name"`, and cleaning is idempotent. -/
theorem C3_label_cleaning :
    clean " State Name " = "state_name" ∧ ∀ x : String, clean (clean x) = clean x :=
  ⟨by decide, clean_clean⟩

/-! ### Table-level lemmas: cells, column setting, union, counting -/

theorem cell_of_not_mem {cols : List String} (r : List Value) {c : String}
    (h : c ∉ cols) : cell cols r c = .null := by
  unfold cell
  rw [List.find?_eq_none.mpr]
  intro p hp
  have := (List.of_mem_zip hp).1
  simp only [beq_iff_eq]
  intro hc
  exact h (hc ▸ this)

theorem cell_map_self {cs : List String} (f : String → Value) {c : String}
    (h : c ∈ cs) : cell cs (cs.map f) c = f c := by
  induction cs with
  | nil => simp at h
  | cons a t ih =>
    by_cases hac : a = c
    · subst hac
      unfold cell
      simp [List.find?]
    · unfold cell
      simp only [List.map_cons, List.zip_cons_cons, List.find?]
      rw [show (a == c) = false by simp [hac]]
      have hct : c ∈ t := by
        rcases List.mem_cons.mp h with h' | h'
        · exact absurd h'.symm hac
        · exact h'
      exact ih hct

theorem cell_zipWith_set {cols : List String} {r : List Value} {c : String} (v : Value)
    (h : c ∈ cols) (hl : r.length = cols.length) :
    cell cols (List.zipWith (fun cc x => if cc = c then v else x) cols r) c = v := by
  induction cols generalizing r with
  | nil => simp at h
  | cons a t ih =>
    cases r with
    | nil => simp at hl
    | cons b rt =>
      by_cases hac : a = c
      · subst hac
        unfold cell
        simp [List.find?]
      · unfold cell
        simp only [List.zipWith_cons_cons, List.zip_cons_cons, List.find?, if_neg hac]
        rw [show (a == c) = false by simp [hac]]
        have hct : c ∈ t := by
          rcases List.mem_cons.mp h with h' | h'
          · exact absurd h'.symm hac
          · exact h'
        have hlt : rt.length = t.length := by simpa using hl
        exact ih hct hlt

theorem cell_append_last {cols : List String} {r : List Value} {c : String} (v : Value)
    (h : c ∉ cols) (hl : r.length = cols.length) :
    cell (cols ++ [c]) (r ++ [v]) c = v := by
  unfold cell
  rw [List.zip_append hl.symm, List.find?_append]
  have h1 : (cols.zip r).find? (fun p => p.1 == c) = none := by
    rw [List.find?_eq_none]
    intro p hp
    have := (List.of_mem_zip hp).1
    simp only [beq_iff_eq]
    intro hc
    exact h (hc ▸ this)
  rw [h1]
  simp [List.find?]

theorem setCol_cols (t : Table) (c : String) (v : Value) :
    (setCol t c v).cols = if c ∈ t.cols then t.cols else t.cols ++ [c] := by
  unfold setCol
  split <;> rfl

theorem mem_setCol_cols (t : Table) (c v : _) (c' : String) :
    c' ∈ (setCol t c v).cols ↔ c' ∈ t.cols ∨ c' = c := by
  rw [setCol_cols]
  split
  · constructor
    · exact Or.inl
    · rintro (h | rfl)
      · exact h
      · assumption
  · simp

theorem self_mem_setCol_cols (t : Table) (c : String) (v : Value) :
    c ∈ (setCol t c v).cols := by
  rw [mem_setCol_cols]
  exact Or.inr rfl

theorem cell_setCol (t : Table) (c : String) (v : Value) (wf : t.WF) :
    ∀ r' ∈ (setCol t c v).rows, cell (setCol t c v).cols r' c = v := by
  intro r' hr'
  unfold setCol at hr' ⊢
  by_cases hc : c ∈ t.cols
  · rw [if_pos hc] at hr' ⊢
    simp only [List.mem_map] at hr'
    obtain ⟨r, hr, rfl⟩ := hr'
    exact cell_zipWith_set v hc (wf r hr)
  · rw [if_neg hc] at hr' ⊢
    simp only [List.mem_map] at hr'
    obtain ⟨r, hr, rfl⟩ := hr'
    exact cell_append_last v hc (wf r hr)

theorem mem_unionCols {l₁ l₂ : List String} (c : String) :
    c ∈ unionCols l₁ l₂ ↔ c ∈ l₁ ∨ c ∈ l₂ := by
  unfold unionCols
  simp only [List.mem_append, List.mem_filter, Bool.not_eq_true', List.contains,
    List.elem_eq_mem, decide_eq_false_iff_not]
  constructor
  · rintro (h | ⟨h, _⟩)
    · exact Or.inl h
    · exact Or.inr h
  · rintro (h | h)
    · exact Or.inl h
    · by_cases h1 : c ∈ l₁
      · exact Or.inl h1
      · exact Or.inr ⟨h, h1⟩

theorem count_unionCols_of_mem {l₁ : List String} (l₂ : List String) {c : String}
    (h : c ∈ l₁) : (unionCols l₁ l₂).count c = l₁.count c := by
  unfold unionCols
  rw [List.count_append]
  have : (l₂.filter (fun x => !(l₁.contains x))).count c = 0 := by
    rw [List.count_eq_zero]
    intro hmem
    have := (List.mem_filter.mp hmem).2
    simp [List.contains, h] at this
  omega

theorem cell_alignRow_of_mem {cs : List String} (cols : List String) (r : List Value)
    {c : String} (h : c ∈ cs) :
    cell cs (alignRow cs cols r) c = cell cols r c :=
  cell_map_self (cell cols r) h

theorem mapCol_ne_year {c : String} (hc : c ≠ "year") : mapCol c ≠ "year" := by
  unfold mapCol
  split_ifs <;> first | decide | exact hc

theorem mapCol_beq_year (x : String) : (mapCol x == "year") = (x == "year") := by
  by_cases h : x = "year"
  · subst h; decide
  · have h2 := mapCol_ne_year h
    simp [h, h2]

theorem count_year_map_mapCol (l : List String) :
    (l.map mapCol).count "year" = l.count "year" := by
  rw [List.count_eq_countP, List.count_eq_countP, List.countP_map]
  apply List.countP_congr
  intro a _
  simp only [Function.comp_apply]
  rw [mapCol_beq_year a]

theorem count_setCol_cols_self (t : Table) (c : String) (v : Value)
    (h : t.cols.count c ≤ 1) : (setCol t c v).cols.count c = 1 := by
  rw [setCol_cols]
  split
  · have h1 : 0 < t.cols.count c := List.count_pos_iff.mpr (by assumption)
    omega
  · rw [List.count_append]
    have h0 : t.cols.count c = 0 := by
      rw [List.count_eq_zero]
      assumption
    simp [h0]

theorem setCol_rows_length (t : Table) (c : String) (v : Value) :
    (setCol t c v).rows.length = t.rows.length := by
  unfold setCol
  split <;> simp

theorem WF_map_semantic_normalize {d : Table} (wf : d.WF) :
    (map_semantic (normalize d)).WF := by
  intro r hr
  simp only [map_semantic, normalize, List.length_map]
  exact wf r hr

theorem WF_sanitize24 {d : Table} (wf : d.WF) : (sanitize24 d).WF := by
  unfold sanitize24
  split
  · intro r hr
    simp only [dropNullMargin, coerceMargin] at hr ⊢
    have hr2 := List.mem_of_mem_filter hr
    simp only [List.mem_map] at hr2
    obtain ⟨r0, hr0, rfl⟩ := hr2
    rw [List.length_zipWith]
    have := wf r0 hr0
    omega
  · exact wf

theorem cell_alignRow_of_not_mem (cs cols : List String) (r : List Value) {c : String}
    (h : c ∉ cols) : cell cs (alignRow cs cols r) c = .null := by
  by_cases hcs : c ∈ cs
  · rw [cell_alignRow_of_mem cols r hcs]
    exact cell_of_not_mem r h
  · exact cell_of_not_mem _ hcs

theorem has_iff_mem (t : Table) (c : String) : has t c = true ↔ c ∈ t.cols := by
  simp [has, List.contains]

/-- C1 (counterexample): the 2019 dataset below has no column mapping to
`margin`, yet after the union the year-2019 view still has a `margin`
column (contributed by 2014), so the presence query answers `true`, not
`false` as claimed. -/
theorem C1_counterexample :
    (map_semantic (normalize ⟨["state"], [[.str "A"]]⟩)).cols = ["state"] ∧
    has (filterEq
          (load_data ⟨["margin"], [[.num 5]]⟩ ⟨["state"], [[.str "A"]]⟩
            ⟨["party"], [[.str "B"]]⟩)
          "year" (.num 2019))
        "margin" = true := by
  constructor
  · decide
  · decide

/-- C1 (amended): row filtering to a year never changes the schema, so
the presence query on the year-filtered view equals the presence query
on the whole unioned table; `margin` is present there exactly when at
least one of the three processed datasets contributed a column mapping
to `margin` — regardless of which year the view is filtered to. -/
theorem C1_presence_structural (d14 d19 d24 : Table) (y : Value) :
    (∀ c : String,
      has (filterEq (load_data d14 d19 d24) "year" y) c = has (load_data d14 d19 d24) c) ∧
    (has (load_data d14 d19 d24) "margin" = true ↔
      "margin" ∈ (map_semantic (normalize d14)).cols ∨
      "margin" ∈ (map_semantic (normalize d19)).cols ∨
      "margin" ∈ (map_semantic (normalize (sanitize24 d24))).cols) := by
  constructor
  · intro c
    rfl
  · rw [has_iff_mem]
    show "margin" ∈ unionCols (unionCols _ _) _ ↔ _
    rw [mem_unionCols, mem_unionCols, mem_setCol_cols, mem_setCol_cols, mem_setCol_cols]
    simp only [show ("margin" = "year") = False by simp, or_false]
    tauto

/-- C10: a dataset whose cleaned labels contain both `state` and
`state_name` is renamed to a schema that lists `state` twice — duplicate
labels, with no merging and no label left unchanged — and the row data
is untouched. -/
theorem C10_duplicate_field_labels :
    (map_semantic ⟨["state", "state_name", "x"], [[.str "A", .str "B", .str "C"]]⟩).cols
      = ["state", "state", "x"] ∧
    (map_semantic ⟨["state", "state_name", "x"], [[.str "A", .str "B", .str "C"]]⟩).cols.count
        "state" = 2 ∧
    (map_semantic ⟨["state", "state_name", "x"], [[.str "A", .str "B", .str "C"]]⟩).rows
      = [[.str "A", .str "B", .str "C"]] := by
  refine ⟨by decide, by decide, by decide⟩

theorem mapCol_unmapped {c : String} (h : c ∉ synonyms) : mapCol c = c := by
  simp only [synonyms, List.mem_cons, List.not_mem_nil, or_false, not_or] at h
  obtain ⟨h1, h2, h3, h4, h5, h6, h7, h8, h9, h10⟩ := h
  simp only [mapCol, h1, h2, h3, h4, h5, h6, h7, h8, h9, h10, or_self, if_false]

theorem mem_concat3_cols_left {t₁ : Table} (t₂ t₃ : Table) {c : String}
    (h : c ∈ t₁.cols) : c ∈ (concat3 t₁ t₂ t₃).cols := by
  show c ∈ unionCols (unionCols t₁.cols t₂.cols) t₃.cols
  rw [mem_unionCols, mem_unionCols]
  tauto

theorem mem_concat3_cols_mid (t₁ : Table) {t₂ : Table} (t₃ : Table) {c : String}
    (h : c ∈ t₂.cols) : c ∈ (concat3 t₁ t₂ t₃).cols := by
  show c ∈ unionCols (unionCols t₁.cols t₂.cols) t₃.cols
  rw [mem_unionCols, mem_unionCols]
  tauto

theorem mem_concat3_cols_right (t₁ t₂ : Table) {t₃ : Table} {c : String}
    (h : c ∈ t₃.cols) : c ∈ (concat3 t₁ t₂ t₃).cols := by
  show c ∈ unionCols (unionCols t₁.cols t₂.cols) t₃.cols
  rw [mem_unionCols]
  tauto

theorem alignRow_mem_concat3_mid (t₁ : Table) {t₂ : Table} (t₃ : Table) {r : List Value}
    (hr : r ∈ t₂.rows) :
    alignRow (concat3 t₁ t₂ t₃).cols t₂.cols r ∈ (concat3 t₁ t₂ t₃).rows := by
  show _ ∈ _ ++ _ ++ _
  rw [List.mem_append, List.mem_append]
  exact Or.inl (Or.inr (List.mem_map_of_mem _ hr))

/-- C4: semantic mapping is exactly the closed synonym table — each
group member maps to its canonical field, `map_semantic` renames each
column label by that table leaving the rows untouched, every label
outside all groups passes through unchanged, and any column present in a
dataset survives into the unioned table with its cell values intact. -/
theorem C4_semantic_mapping :
    (∀ c ∈ ["state", "state_name"], mapCol c = "state") ∧
    (∀ c ∈ ["party", "party_name"], mapCol c = "party") ∧
    (∀ c ∈ ["votes", "total_votes", "valid_votes"], mapCol c = "votes") ∧
    (∀ c ∈ ["margin", "vote_margin", "winning_margin"], mapCol c = "margin") ∧
    (∀ t : Table, (map_semantic t).cols = t.cols.map mapCol ∧ (map_semantic t).rows = t.rows) ∧
    (∀ c : String, c ∉ synonyms → mapCol c = c) ∧
    (∀ t₁ t₂ t₃ : Table, ∀ c ∈ t₂.cols,
      c ∈ (concat3 t₁ t₂ t₃).cols ∧
      ∀ r ∈ t₂.rows,
        alignRow (concat3 t₁ t₂ t₃).cols t₂.cols r ∈ (concat3 t₁ t₂ t₃).rows ∧
        cell (concat3 t₁ t₂ t₃).cols (alignRow (concat3 t₁ t₂ t₃).cols t₂.cols r) c
          = cell t₂.cols r c) := by
  refine ⟨by decide, by decide, by decide, by decide, fun t => ⟨rfl, rfl⟩,
    fun c h => mapCol_unmapped h, ?_⟩
  intro t₁ t₂ t₃ c hc
  refine ⟨mem_concat3_cols_mid t₁ t₃ hc, ?_⟩
  intro r hr
  exact ⟨alignRow_mem_concat3_mid t₁ t₃ hr,
    cell_alignRow_of_mem t₂.cols r (mem_concat3_cols_mid t₁ t₃ hc)⟩

theorem year_cell_aligned {base : Table} (y : Value) (wf : base.WF) {cs : List String}
    (hcs : "year" ∈ cs) :
    ∀ r ∈ (setCol base "year" y).rows,
      cell cs (alignRow cs (setCol base "year" y).cols r) "year" = y := by
  intro r hr
  rw [cell_alignRow_of_mem _ _ hcs]
  exact cell_setCol base "year" y wf r hr

theorem countP_map_eq_length {α β : Type} (f : α → β) (p : β → Bool) (l : List α)
    (h : ∀ a ∈ l, p (f a) = true) : (l.map f).countP p = l.length := by
  rw [List.countP_map]
  rw [List.countP_eq_length.mpr]
  intro a ha
  exact h a ha

theorem countP_map_eq_zero {α β : Type} (f : α → β) (p : β → Bool) (l : List α)
    (h : ∀ a ∈ l, p (f a) = false) : (l.map f).countP p = 0 := by
  rw [List.countP_map]
  rw [List.countP_eq_zero.mpr]
  intro a ha
  simp only [Function.comp_apply, h a ha]
  simp

/-- C5 (counterexample): raw headers `Year` and `YEAR` both clean to
`year`, so each dataset below ends up with the identical duplicated
schema `["year", "year"]`; `pd.concat` then takes its fast path and
completes with `year` listed twice — two `year` fields per row, not
exactly one as claimed (both set to the source's literal by the
overwriting year assignment, so the duplicated cells agree and the
embedding is exact here). -/
theorem C5_counterexample :
    (⟨["Year", "YEAR"], [[.num 1, .num 2]]⟩ : Table).WF ∧
    (⟨["Year", "YEAR"], [[.num 3, .num 4]]⟩ : Table).WF ∧
    (⟨["Year", "YEAR"], [[.num 5, .num 6]]⟩ : Table).WF ∧
    (load_data ⟨["Year", "YEAR"], [[.num 1, .num 2]]⟩ ⟨["Year", "YEAR"], [[.num 3, .num 4]]⟩
        ⟨["Year", "YEAR"], [[.num 5, .num 6]]⟩).cols = ["year", "year"] ∧
    (load_data ⟨["Year", "YEAR"], [[.num 1, .num 2]]⟩ ⟨["Year", "YEAR"], [[.num 3, .num 4]]⟩
        ⟨["Year", "YEAR"], [[.num 5, .num 6]]⟩).cols.count "year" = 2 ∧
    (load_data ⟨["Year", "YEAR"], [[.num 1, .num 2]]⟩ ⟨["Year", "YEAR"], [[.num 3, .num 4]]⟩
        ⟨["Year", "YEAR"], [[.num 5, .num 6]]⟩).rows
      = [[.num 2014, .num 2014], [.num 2019, .num 2019], [.num 2024, .num 2024]] := by
  refine ⟨by decide, by decide, by decide, by decide, by decide, by decide⟩

/-- C5 (amended): for well-formed inputs no two of whose cleaned labels
collide on `year` (each cleaned schema carries at most one `year`
label), the unioned schema has exactly one `year` column, every row's
`year` is the fixed literal 2014/2019/2024 of its source dataset, the
per-year row counts equal each source's (post-sanitation) row count, and
the three counts sum to the total row count. -/
theorem C5_year_tagging (d14 d19 d24 : Table)
    (wf14 : d14.WF) (wf19 : d19.WF) (wf24 : d24.WF)
    (h14 : (normalize d14).cols.count "year" ≤ 1)
    (h19 : (normalize d19).cols.count "year" ≤ 1)
    (h24 : (normalize (sanitize24 d24)).cols.count "year" ≤ 1) :
    (load_data d14 d19 d24).cols.count "year" = 1 ∧
    (∀ r ∈ (load_data d14 d19 d24).rows,
      cell (load_data d14 d19 d24).cols r "year" = .num 2014 ∨
      cell (load_data d14 d19 d24).cols r "year" = .num 2019 ∨
      cell (load_data d14 d19 d24).cols r "year" = .num 2024) ∧
    ((load_data d14 d19 d24).rows.countP
        (fun r => cell (load_data d14 d19 d24).cols r "year" == Value.num 2014)
      = d14.rows.length) ∧
    ((load_data d14 d19 d24).rows.countP
        (fun r => cell (load_data d14 d19 d24).cols r "year" == Value.num 2019)
      = d19.rows.length) ∧
    ((load_data d14 d19 d24).rows.countP
        (fun r => cell (load_data d14 d19 d24).cols r "year" == Value.num 2024)
      = (sanitize24 d24).rows.length) ∧
    ((load_data d14 d19 d24).rows.countP
        (fun r => cell (load_data d14 d19 d24).cols r "year" == Value.num 2014)
      + (load_data d14 d19 d24).rows.countP
        (fun r => cell (load_data d14 d19 d24).cols r "year" == Value.num 2019)
      + (load_data d14 d19 d24).rows.countP
        (fun r => cell (load_data d14 d19 d24).cols r "year" == Value.num 2024)
      = (load_data d14 d19 d24).rows.length) := by
  have wfb14 : (map_semantic (normalize d14)).WF := WF_map_semantic_normalize wf14
  have wfb19 : (map_semantic (normalize d19)).WF := WF_map_semantic_normalize wf19
  have wfb24 : (map_semantic (normalize (sanitize24 d24))).WF :=
    WF_map_semantic_normalize (WF_sanitize24 wf24)
  have hyr14 : "year" ∈ (setCol (map_semantic (normalize d14)) "year" (Value.num 2014)).cols :=
    self_mem_setCol_cols _ _ _
  have hyr19 : "year" ∈ (setCol (map_semantic (normalize d19)) "year" (Value.num 2019)).cols :=
    self_mem_setCol_cols _ _ _
  have hyr24 : "year" ∈
      (setCol (map_semantic (normalize (sanitize24 d24))) "year" (Value.num 2024)).cols :=
    self_mem_setCol_cols _ _ _
  have hcolsU : (load_data d14 d19 d24).cols
      = unionCols (unionCols
          (setCol (map_semantic (normalize d14)) "year" (Value.num 2014)).cols
          (setCol (map_semantic (normalize d19)) "year" (Value.num 2019)).cols)
        (setCol (map_semantic (normalize (sanitize24 d24))) "year" (Value.num 2024)).cols := rfl
  have hrowsU : (load_data d14 d19 d24).rows
      = (setCol (map_semantic (normalize d14)) "year" (Value.num 2014)).rows.map
          (alignRow (load_data d14 d19 d24).cols
            (setCol (map_semantic (normalize d14)) "year" (Value.num 2014)).cols)
      ++ (setCol (map_semantic (normalize d19)) "year" (Value.num 2019)).rows.map
          (alignRow (load_data d14 d19 d24).cols
            (setCol (map_semantic (normalize d19)) "year" (Value.num 2019)).cols)
      ++ (setCol (map_semantic (normalize (sanitize24 d24))) "year" (Value.num 2024)).rows.map
          (alignRow (load_data d14 d19 d24).cols
            (setCol (map_semantic (normalize (sanitize24 d24))) "year" (Value.num 2024)).cols) := rfl
  have hyrU : "year" ∈ (load_data d14 d19 d24).cols := by
    rw [hcolsU, mem_unionCols, mem_unionCols]
    exact Or.inl (Or.inl hyr14)
  have hy14 := year_cell_aligned (Value.num 2014) wfb14 hyrU
  have hy19 := year_cell_aligned (Value.num 2019) wfb19 hyrU
  have hy24 := year_cell_aligned (Value.num 2024) wfb24 hyrU
  refine ⟨?_, ?_, ?_, ?_, ?_, ?_⟩
  · rw [hcolsU, count_unionCols_of_mem _ (by rw [mem_unionCols]; exact Or.inl hyr14),
      count_unionCols_of_mem _ hyr14]
    apply count_setCol_cols_self
    calc (map_semantic (normalize d14)).cols.count "year"
        = (normalize d14).cols.count "year" := count_year_map_mapCol _
      _ ≤ 1 := h14
  · intro r hr
    rw [hrowsU, List.mem_append, List.mem_append] at hr
    rcases hr with (hr | hr) | hr <;> rw [List.mem_map] at hr <;> obtain ⟨r0, hr0, rfl⟩ := hr
    · exact Or.inl (hy14 r0 hr0)
    · exact Or.inr (Or.inl (hy19 r0 hr0))
    · exact Or.inr (Or.inr (hy24 r0 hr0))
  · rw [hrowsU, List.countP_append, List.countP_append]
    rw [countP_map_eq_length _ _ _ (fun r hr => by rw [hy14 r hr]; rfl),
      countP_map_eq_zero _ _ _ (fun r hr => by rw [hy19 r hr]; rfl),
      countP_map_eq_zero _ _ _ (fun r hr => by rw [hy24 r hr]; rfl)]
    rw [setCol_rows_length]
    show d14.rows.length + 0 + 0 = d14.rows.length
    omega
  · rw [hrowsU, List.countP_append, List.countP_append]
    rw [countP_map_eq_zero _ _ _ (fun r hr => by rw [hy14 r hr]; rfl),
      countP_map_eq_length _ _ _ (fun r hr => by rw [hy19 r hr]; rfl),
      countP_map_eq_zero _ _ _ (fun r hr => by rw [hy24 r hr]; rfl)]
    rw [setCol_rows_length]
    show 0 + d19.rows.length + 0 = d19.rows.length
    omega
  · rw [hrowsU, List.countP_append, List.countP_append]
    rw [countP_map_eq_zero _ _ _ (fun r hr => by rw [hy14 r hr]; rfl),
      countP_map_eq_zero _ _ _ (fun r hr => by rw [hy19 r hr]; rfl),
      countP_map_eq_length _ _ _ (fun r hr => by rw [hy24 r hr]; rfl)]
    rw [setCol_rows_length]
    show 0 + 0 + (sanitize24 d24).rows.length = (sanitize24 d24).rows.length
    omega
  · have hc14 : (load_data d14 d19 d24).rows.countP
        (fun r => cell (load_data d14 d19 d24).cols r "year" == Value.num 2014)
        = d14.rows.length := by
      rw [hrowsU, List.countP_append, List.countP_append]
      rw [countP_map_eq_length _ _ _ (fun r hr => by rw [hy14 r hr]; rfl),
        countP_map_eq_zero _ _ _ (fun r hr => by rw [hy19 r hr]; rfl),
        countP_map_eq_zero _ _ _ (fun r hr => by rw [hy24 r hr]; rfl)]
      rw [setCol_rows_length]
      show d14.rows.length + 0 + 0 = d14.rows.length
      omega
    have hc19 : (load_data d14 d19 d24).rows.countP
        (fun r => cell (load_data d14 d19 d24).cols r "year" == Value.num 2019)
        = d19.rows.length := by
      rw [hrowsU, List.countP_append, List.countP_append]
      rw [countP_map_eq_zero _ _ _ (fun r hr => by rw [hy14 r hr]; rfl),
        countP_map_eq_length _ _ _ (fun r hr => by rw [hy19 r hr]; rfl),
        countP_map_eq_zero _ _ _ (fun r hr => by rw [hy24 r hr]; rfl)]
      rw [setCol_rows_length]
      show 0 + d19.rows.length + 0 = d19.rows.length
      omega
    have hc24 : (load_data d14 d19 d24).rows.countP
        (fun r => cell (load_data d14 d19 d24).cols r "year" == Value.num 2024)
        = (sanitize24 d24).rows.length := by
      rw [hrowsU, List.countP_append, List.countP_append]
      rw [countP_map_eq_zero _ _ _ (fun r hr => by rw [hy14 r hr]; rfl),
        countP_map_eq_zero _ _ _ (fun r hr => by rw [hy19 r hr]; rfl),
        countP_map_eq_length _ _ _ (fun r hr => by rw [hy24 r hr]; rfl)]
      rw [setCol_rows_length]
      show 0 + 0 + (sanitize24 d24).rows.length = (sanitize24 d24).rows.length
      omega
    have hlen : (load_data d14 d19 d24).rows.length
        = d14.rows.length + d19.rows.length + (sanitize24 d24).rows.length := by
      rw [hrowsU, List.length_append, List.length_append, List.length_map,
        List.length_map, List.length_map, setCol_rows_length, setCol_rows_length,
        setCol_rows_length]
      rfl
    rw [hc14, hc19, hc24, hlen]

/-- C6: the unioned table is the dataset-order concatenation of the
three year-tagged tables' rows, each re-keyed to the unioned schema in
original within-dataset order; every column of each dataset is kept in
the unioned schema, and a row's cell at a column its own dataset lacks
is null. -/
theorem C6_union_concatenation (d14 d19 d24 : Table) :
    ((load_data d14 d19 d24).rows
      = (setCol (map_semantic (normalize d14)) "year" (.num 2014)).rows.map
          (alignRow (load_data d14 d19 d24).cols
            (setCol (map_semantic (normalize d14)) "year" (.num 2014)).cols)
      ++ (setCol (map_semantic (normalize d19)) "year" (.num 2019)).rows.map
          (alignRow (load_data d14 d19 d24).cols
            (setCol (map_semantic (normalize d19)) "year" (.num 2019)).cols)
      ++ (setCol (map_semantic (normalize (sanitize24 d24))) "year" (.num 2024)).rows.map
          (alignRow (load_data d14 d19 d24).cols
            (setCol (map_semantic (normalize (sanitize24 d24))) "year" (.num 2024)).cols)) ∧
    (∀ c ∈ (setCol (map_semantic (normalize d14)) "year" (.num 2014)).cols,
      c ∈ (load_data d14 d19 d24).cols) ∧
    (∀ c ∈ (setCol (map_semantic (normalize d19)) "year" (.num 2019)).cols,
      c ∈ (load_data d14 d19 d24).cols) ∧
    (∀ c ∈ (setCol (map_semantic (normalize (sanitize24 d24))) "year" (.num 2024)).cols,
      c ∈ (load_data d14 d19 d24).cols) ∧
    (∀ (c : String) (r : List Value),
      c ∉ (setCol (map_semantic (normalize d14)) "year" (.num 2014)).cols →
      cell (load_data d14 d19 d24).cols
        (alignRow (load_data d14 d19 d24).cols
          (setCol (map_semantic (normalize d14)) "year" (.num 2014)).cols r) c = .null) ∧
    (∀ (c : String) (r : List Value),
      c ∉ (setCol (map_semantic (normalize d19)) "year" (.num 2019)).cols →
      cell (load_data d14 d19 d24).cols
        (alignRow (load_data d14 d19 d24).cols
          (setCol (map_semantic (normalize d19)) "year" (.num 2019)).cols r) c = .null) ∧
    (∀ (c : String) (r : List Value),
      c ∉ (setCol (map_semantic (normalize (sanitize24 d24))) "year" (.num 2024)).cols →
      cell (load_data d14 d19 d24).cols
        (alignRow (load_data d14 d19 d24).cols
          (setCol (map_semantic (normalize (sanitize24 d24))) "year" (.num 2024)).cols r) c
        = .null) := by
  refine ⟨rfl, ?_, ?_, ?_, ?_, ?_, ?_⟩
  · intro c hc
    exact mem_concat3_cols_left _ _ hc
  · intro c hc
    exact mem_concat3_cols_mid _ _ hc
  · intro c hc
    exact mem_concat3_cols_right _ _ hc
  · intro c r hc
    exact cell_alignRow_of_not_mem _ _ r hc
  · intro c r hc
    exact cell_alignRow_of_not_mem _ _ r hc
  · intro c r hc
    exact cell_alignRow_of_not_mem _ _ r hc

theorem cell_zipWith_update (cols : List String) (r : List Value) (c : String)
    (f : Value → Value) (hf : f .null = .null) :
    cell cols (List.zipWith (fun cc x => if cc = c then f x else x) cols r) c
      = f (cell cols r c) := by
  induction cols generalizing r with
  | nil => simp [cell, hf]
  | cons a t ih =>
    cases r with
    | nil => simp [cell, hf]
    | cons b rt =>
      by_cases hac : a = c
      · subst hac
        unfold cell
        simp [List.find?]
      · unfold cell
        simp only [List.zipWith_cons_cons, List.zip_cons_cons, List.find?, if_neg hac]
        rw [show (a == c) = false by simp [hac]]
        exact ih rt

/-- C2: for the 2024 dataset only and before label cleaning, a literal
`Margin` column is coerced to numeric and the rows whose coercion is
missing are dropped entirely: the three-row example keeps exactly the
rows with margins 10000 and -500; a kept row's `Margin` is never null;
and the 2014/2019 pipeline never drops or alters a row. -/
theorem C2_margin_sanitation_2024_only :
    ((load_data ⟨[], []⟩ ⟨[], []⟩
        ⟨["Margin"], [[.str "10000"], [.str "N/A"], [.str "-500"]]⟩).cols
      = ["year", "margin"]) ∧
    ((load_data ⟨[], []⟩ ⟨[], []⟩
        ⟨["Margin"], [[.str "10000"], [.str "N/A"], [.str "-500"]]⟩).rows
      = [[.num 2024, .num 10000], [.num 2024, .num (-500)]]) ∧
    (∀ d : Table, "Margin" ∈ d.cols →
      (sanitize24 d).rows.length
          = d.rows.countP (fun r => !(toNumeric (cell d.cols r "Margin") == Value.null)) ∧
      ∀ r' ∈ (sanitize24 d).rows, cell d.cols r' "Margin" ≠ Value.null) ∧
    (∀ d : Table, (map_semantic (normalize d)).rows = d.rows) := by
  refine ⟨by decide, by decide, ?_, fun d => rfl⟩
  intro d hd
  constructor
  · unfold sanitize24
    rw [if_pos hd]
    show ((coerceMargin d).rows.filter
        (fun r => !(cell d.cols r "Margin" == Value.null))).length = _
    rw [← List.countP_eq_length_filter]
    show ((d.rows.map _).countP _) = _
    rw [List.countP_map]
    apply List.countP_congr
    intro r _
    simp only [Function.comp_apply]
    rw [cell_zipWith_update d.cols r "Margin" toNumeric rfl]
  · intro r' hr'
    unfold sanitize24 at hr'
    rw [if_pos hd] at hr'
    have h2 := (List.mem_filter.mp hr').2
    simpa using h2

theorem filterEq_cols (t : Table) (c : String) (v : Value) :
    (filterEq t c v).cols = t.cols := rfl

theorem has_filterEq (t : Table) (c : String) (v : Value) (c' : String) :
    has (filterEq t c v) c' = has t c' := rfl

theorem has_ite (P : Prop) [Decidable P] (t₁ t₂ : Table) (c : String) :
    has (if P then t₁ else t₂) c = if P then has t₁ c else has t₂ c := by
  by_cases h : P <;> simp [h]

theorem filterEq_comm (t : Table) (c₁ : String) (v₁ : Value) (c₂ : String) (v₂ : Value) :
    filterEq (filterEq t c₁ v₁) c₂ v₂ = filterEq (filterEq t c₂ v₂) c₁ v₁ := by
  unfold filterEq
  simp only [List.filter_filter]
  congr 1
  apply List.filter_congr
  intro r _
  exact Bool.and_comm _ _

theorem dashboard_filtered_order (df : Table) (y : Value) (s p : String) :
    dashboard_filtered df y s p = dashboard_filtered_alt df y s p := by
  unfold dashboard_filtered dashboard_filtered_alt
  simp only [has_ite, has_filterEq, ite_self]
  split_ifs <;> first | rfl | exact filterEq_comm _ _ _ _ _

/-- C7: choosing year 2019, state `"X"`, party `"All"` yields exactly
the rows with `year == 2019` and `state == "X"` (the `"All"` choice
applies no party filter), and the cascade's result never depends on the
order in which the state and party filters are applied. -/
theorem C7_filter_cascading (df : Table) (hs : has df "state" = true) :
    ((dashboard_filtered df (.num 2019) "X" "All").rows
      = df.rows.filter (fun r =>
          cell df.cols r "year" == Value.num 2019 && cell df.cols r "state" == Value.str "X")) ∧
    (∀ (y : Value) (s p : String),
      dashboard_filtered df y s p = dashboard_filtered_alt df y s p) := by
  constructor
  · simp only [dashboard_filtered]
    rw [if_neg (fun h => h.2 rfl), if_pos ⟨hs, by decide⟩]
    show ((df.rows.filter _).filter _) = _
    rw [List.filter_filter]
    apply List.filter_congr
    intro r _
    exact Bool.and_comm _ _
  · exact fun y s p => dashboard_filtered_order df y s p

/-- C8: the average aggregate coerces non-numeric `votes`/`margin`
entries to missing and excludes them — an absent column or a column with
no usable value yields the `none` ("N/A") signal, never a failure, and a
produced average is exactly the mean of the usable values. -/
theorem C8_aggregate_error_handling (t : Table) (c : String) :
    (has t c = false → avgMetric t c = none) ∧
    (numericCol t c = [] → avgMetric t c = none) ∧
    (∀ q : Rat, avgMetric t c = some q →
      numericCol t c ≠ [] ∧
      q = ((numericCol t c).sum : Rat) / ((numericCol t c).length : Rat)) ∧
    avgMetric ⟨["votes"], [[.str "10"], [.str "x"], [.num 20], [.null]]⟩ "votes"
      = some 15 := by
  refine ⟨?_, ?_, ?_, by decide⟩
  · intro h
    simp [avgMetric, h]
  · intro h
    simp [avgMetric, h]
  · intro q hq
    unfold avgMetric at hq
    by_cases h1 : has t c = true
    · rw [if_pos h1] at hq
      by_cases h2 : (numericCol t c).isEmpty = true
      · rw [if_pos h2] at hq
        simp at hq
      · rw [if_neg h2] at hq
        have hq2 := Option.some.inj hq
        constructor
        · intro hnil
          rw [hnil] at h2
          simp at h2
        · rw [← hq2, Rat.mkRat_eq_div]
    · rw [if_neg h1] at hq
      simp at hq
  
theorem WF_setCol {t : Table} (c : String) (v : Value) (wf : t.WF) :
    (setCol t c v).WF := by
  unfold setCol
  split
  · intro r hr
    simp only [List.mem_map] at hr
    obtain ⟨r0, hr0, rfl⟩ := hr
    show (List.zipWith _ t.cols r0).length = t.cols.length
    rw [List.length_zipWith]
    have := wf r0 hr0
    omega
  · intro r hr
    simp only [List.mem_map] at hr
    obtain ⟨r0, hr0, rfl⟩ := hr
    show (r0 ++ [v]).length = (t.cols ++ [c]).length
    simp only [List.length_append, List.length_singleton]
    have := wf r0 hr0
    omega

theorem WF_concat3 (t₁ t₂ t₃ : Table) : (concat3 t₁ t₂ t₃).WF := by
  intro r hr
  rw [show (concat3 t₁ t₂ t₃).rows
      = t₁.rows.map (alignRow (concat3 t₁ t₂ t₃).cols t₁.cols)
      ++ t₂.rows.map (alignRow (concat3 t₁ t₂ t₃).cols t₂.cols)
      ++ t₃.rows.map (alignRow (concat3 t₁ t₂ t₃).cols t₃.cols) from rfl,
    List.mem_append, List.mem_append] at hr
  rcases hr with (hr | hr) | hr <;> rw [List.mem_map] at hr <;>
    obtain ⟨r0, hr0, rfl⟩ := hr <;> exact List.length_map _ _

/-- C9 (counterexample): on well-formed tabular input whose 2014 headers
`State` and `State Name` both map to `state`, the year-tagged 2014 frame
carries a duplicate label while the three schemas differ, so `pd.concat`
must reindex it to the union schema and raises `InvalidIndexError` — an
exception does escape `load_data`, refuting the totality claim. -/
theorem C9_counterexample :
    (⟨["State", "State Name"], [[.str "A", .str "B"]]⟩ : Table).WF ∧
    (⟨["party"], [[.str "P"]]⟩ : Table).WF ∧
    (⟨["votes"], [[.num 9]]⟩ : Table).WF ∧
    (setCol (map_semantic (normalize ⟨["State", "State Name"], [[.str "A", .str "B"]]⟩))
        "year" (.num 2014)).cols = ["state", "state", "year"] ∧
    load_dataE ⟨["State", "State Name"], [[.str "A", .str "B"]]⟩ ⟨["party"], [[.str "P"]]⟩
        ⟨["votes"], [[.num 9]]⟩ = .error "InvalidIndexError" := by
  refine ⟨by decide, by decide, by decide, by decide, ?_⟩
  rfl

/-- C9 (amended): every stage of the normalization pipeline is total on
well-formed tabular input and preserves well-formedness, and — provided
the semantic mapping leaves each year-tagged schema free of duplicate
labels, so that `pd.concat`'s reindexing cannot raise — `load_data`
completes with no exception, the unioned result is well-formed, and a
field is in the output schema exactly when one of the three processed
datasets carried it: absence of a field is the sole signal that no
dataset carried the concept. -/
theorem C9_normalization_total (d14 d19 d24 : Table)
    (wf14 : d14.WF) (wf19 : d19.WF) (wf24 : d24.WF)
    (hdup14 : (setCol (map_semantic (normalize d14)) "year" (.num 2014)).cols.Nodup)
    (hdup19 : (setCol (map_semantic (normalize d19)) "year" (.num 2019)).cols.Nodup)
    (hdup24 : (setCol (map_semantic (normalize (sanitize24 d24))) "year"
        (.num 2024)).cols.Nodup) :
    (load_dataE d14 d19 d24 = .ok (load_data d14 d19 d24)) ∧
    (map_semantic (normalize d14)).WF ∧
    (map_semantic (normalize d19)).WF ∧
    (sanitize24 d24).WF ∧
    (map_semantic (normalize (sanitize24 d24))).WF ∧
    (setCol (map_semantic (normalize d14)) "year" (.num 2014)).WF ∧
    (setCol (map_semantic (normalize d19)) "year" (.num 2019)).WF ∧
    (setCol (map_semantic (normalize (sanitize24 d24))) "year" (.num 2024)).WF ∧
    (load_data d14 d19 d24).WF ∧
    (∀ c : String, c ∈ (load_data d14 d19 d24).cols ↔
      (c ∈ (setCol (map_semantic (normalize d14)) "year" (.num 2014)).cols ∨
       c ∈ (setCol (map_semantic (normalize d19)) "year" (.num 2019)).cols ∨
       c ∈ (setCol (map_semantic (normalize (sanitize24 d24))) "year" (.num 2024)).cols)) := by
  refine ⟨?_, WF_map_semantic_normalize wf14, WF_map_semantic_normalize wf19,
    WF_sanitize24 wf24, WF_map_semantic_normalize (WF_sanitize24 wf24),
    WF_setCol _ _ (WF_map_semantic_normalize wf14),
    WF_setCol _ _ (WF_map_semantic_normalize wf19),
    WF_setCol _ _ (WF_map_semantic_normalize (WF_sanitize24 wf24)),
    WF_concat3 _ _ _, ?_⟩
  · show concat3E _ _ _ = _
    unfold concat3E
    rw [if_pos (Or.inr ⟨hdup14, hdup19, hdup24⟩)]
    rfl
  · intro c
    show c ∈ unionCols (unionCols _ _) _ ↔ _
    rw [mem_unionCols, mem_unionCols, or_assoc]

/-! ### Concrete witnesses -/

/-- Witness for C2: the sanitation row count at a concrete 2024 dataset
with one bad margin row. -/
theorem C2_margin_sanitation_2024_only_witness :
    (sanitize24 ⟨["Margin"], [[.str "7"], [.str "bad"]]⟩).rows.length
      = (⟨["Margin"], [[.str "7"], [.str "bad"]]⟩ : Table).rows.countP
          (fun r =>
            !(toNumeric (cell (⟨["Margin"], [[.str "7"], [.str "bad"]]⟩ : Table).cols r "Margin")
              == Value.null)) :=
  (C2_margin_sanitation_2024_only.2.2.1 ⟨["Margin"], [[.str "7"], [.str "bad"]]⟩ (by decide)).1

/-- Witness for C4: an unmapped label passes through, and a concrete
cell survives the union unchanged. -/
theorem C4_semantic_mapping_witness :
    mapCol "constituency" = "constituency" ∧
    cell (concat3 ⟨["a"], [[.num 1]]⟩ ⟨["b"], [[.num 2]]⟩ ⟨["c"], [[.num 3]]⟩).cols
        (alignRow (concat3 ⟨["a"], [[.num 1]]⟩ ⟨["b"], [[.num 2]]⟩ ⟨["c"], [[.num 3]]⟩).cols
          (⟨["b"], [[.num 2]]⟩ : Table).cols [.num 2]) "b"
      = cell (⟨["b"], [[.num 2]]⟩ : Table).cols [.num 2] "b" :=
  ⟨C4_semantic_mapping.2.2.2.2.2.1 "constituency" (by decide),
   ((C4_semantic_mapping.2.2.2.2.2.2 ⟨["a"], [[.num 1]]⟩ ⟨["b"], [[.num 2]]⟩ ⟨["c"], [[.num 3]]⟩
      "b" (by decide)).2 [.num 2] (by decide)).2⟩

/-- Witness for C5: the unioned schema's unique `year` column at a
concrete input trio. -/
theorem C5_year_tagging_witness :
    (load_data ⟨["votes"], [[.num 1]]⟩ ⟨["state"], [[.str "A"]]⟩
        ⟨["party"], [[.str "B"]]⟩).cols.count "year" = 1 :=
  (C5_year_tagging ⟨["votes"], [[.num 1]]⟩ ⟨["state"], [[.str "A"]]⟩ ⟨["party"], [[.str "B"]]⟩
    (by decide) (by decide) (by decide) (by decide) (by decide) (by decide)).1

/-- Witness for C6: a 2014 row's cell at the 2019-only `state` column is
null in the union. -/
theorem C6_union_concatenation_witness :
    cell (load_data ⟨["votes"], [[.num 7]]⟩ ⟨["state"], [[.str "A"]]⟩
          ⟨["party"], [[.str "B"]]⟩).cols
        (alignRow (load_data ⟨["votes"], [[.num 7]]⟩ ⟨["state"], [[.str "A"]]⟩
            ⟨["party"], [[.str "B"]]⟩).cols
          (setCol (map_semantic (normalize ⟨["votes"], [[.num 7]]⟩)) "year" (.num 2014)).cols
          [.num 7, .num 2014]) "state"
      = .null :=
  (C6_union_concatenation ⟨["votes"], [[.num 7]]⟩ ⟨["state"], [[.str "A"]]⟩
    ⟨["party"], [[.str "B"]]⟩).2.2.2.2.1 "state" [.num 7, .num 2014] (by decide)

/-- Witness for C7: the cascade at a concrete three-row table. -/
theorem C7_filter_cascading_witness :
    (dashboard_filtered
        (⟨["year", "state", "party"],
          [[.num 2019, .str "X", .str "P"], [.num 2019, .str "Y", .str "Q"],
           [.num 2014, .str "X", .str "P"]]⟩ : Table)
        (.num 2019) "X" "All").rows
      = (⟨["year", "state", "party"],
          [[.num 2019, .str "X", .str "P"], [.num 2019, .str "Y", .str "Q"],
           [.num 2014, .str "X", .str "P"]]⟩ : Table).rows.filter
          (fun r =>
            cell (⟨["year", "state", "party"],
              [[.num 2019, .str "X", .str "P"], [.num 2019, .str "Y", .str "Q"],
               [.num 2014, .str "X", .str "P"]]⟩ : Table).cols r "year" == Value.num 2019 &&
            cell (⟨["year", "state", "party"],
              [[.num 2019, .str "X", .str "P"], [.num 2019, .str "Y", .str "Q"],
               [.num 2014, .str "X", .str "P"]]⟩ : Table).cols r "state" == Value.str "X") :=
  (C7_filter_cascading _ (by decide)).1

/-- Witness for C8: the absent-column branch reports "N/A". -/
theorem C8_aggregate_error_handling_witness :
    avgMetric ⟨["x"], [[.num 3]]⟩ "votes" = none :=
  (C8_aggregate_error_handling ⟨["x"], [[.num 3]]⟩ "votes").1 (by decide)

/-- Witness for C9: on a concrete duplicate-free well-formed trio the
error-aware pipeline succeeds with the unioned table. -/
theorem C9_normalization_total_witness :
    load_dataE ⟨["votes"], [[.num 1]]⟩ ⟨["state"], [[.str "A"]]⟩ ⟨["party"], [[.str "B"]]⟩
      = .ok (load_data ⟨["votes"], [[.num 1]]⟩ ⟨["state"], [[.str "A"]]⟩
          ⟨["party"], [[.str "B"]]⟩) :=
  (C9_normalization_total ⟨["votes"], [[.num 1]]⟩ ⟨["state"], [[.str "A"]]⟩
    ⟨["party"], [[.str "B"]]⟩ (by decide) (by decide) (by decide)
    (by decide) (by decide) (by decide)).1

end ElectionApp
